import Mathlib

/-!
Verification development for the deferred, multi-threaded GPU command-recording
layer of the `rizz` repository (`src/rizz/graphics.c`).

The C code is shallowly embedded: machine integers become `Nat` with explicit
masking/modulo where the C computation can wrap, raw pointers into the stage
array become 1-based handles (`0` is the null handle, as in the C code where
`rizz_to_id`/`rizz_to_index` convert between ids and array indices by an offset
of one), debug assertions (`sx_assert`) become `Option`-valued functions that
return `none` when an assertion would fire, and the per-command-buffer parameter
arena becomes a `List UInt8`.
-/

namespace Rizz

/-- Constant `MAX_STAGES` from graphics.c. -/
def MAX_STAGES : Nat := 1024

/-- Constant `MAX_DEPTH` from graphics.c. -/
def MAX_DEPTH : Nat := 64

/-- Constant `STAGE_ORDER_DEPTH_BITS` from graphics.c. -/
def STAGE_ORDER_DEPTH_BITS : Nat := 6

/-- Constant `STAGE_ORDER_DEPTH_MASK` from graphics.c. -/
def STAGE_ORDER_DEPTH_MASK : Nat := 0xfc00

/-- Constant `STAGE_ORDER_ID_BITS` from graphics.c. -/
def STAGE_ORDER_ID_BITS : Nat := 10

/-- Constant `STAGE_ORDER_ID_MASK` from graphics.c. -/
def STAGE_ORDER_ID_MASK : Nat := 0x03ff

/-- Handle conversion `rizz_to_id` (rizz.h, not under `src/`).
Modelled from the spec: handles are 1-based so that 0 can serve as the null
handle ("no stage / no parent"); the id of the stage stored at array index `i`
is `i + 1`. -/
def rizz_to_id (index : Nat) : Nat := index + 1

/-- Handle conversion `rizz_to_index` (rizz.h, not under `src/`).
Modelled from the spec: inverse of `rizz_to_id` on non-null handles. -/
def rizz_to_index (id : Nat) : Nat := id - 1

/-- Hash `sx_hash_fnv32_str` (sx/hash.h, not under `src/`).
Modelled from the spec: a 32-bit FNV-1a hash of the name's characters (stage
names are ASCII, so code points coincide with the hashed bytes). -/
def sx_hash_fnv32_str (s : String) : Nat :=
  s.data.foldl (fun h c => ((h ^^^ c.toNat) * 16777619) % 4294967296) 2166136261

/-- Lifecycle state of a stage (`rizz__gfx_stage_state` in graphics.c). -/
inductive StageState where
  | NONE
  | SUBMITTING
  | DONE
deriving DecidableEq, Repr

/-- Stage record (`rizz__gfx_stage` in graphics.c). The link fields `parent`,
`child`, `next`, `prev` hold 1-based stage handles, 0 being the null handle. -/
structure Stage where
  name : String
  name_hash : Nat
  state : StageState
  parent : Nat
  child : Nat
  next : Nat
  prev : Nat
  order : Nat
  enabled : Bool
  single_enabled : Bool
deriving DecidableEq, Repr

instance : Inhabited Stage :=
  ⟨{ name := "", name_hash := 0, state := .NONE, parent := 0, child := 0, next := 0,
     prev := 0, order := 0, enabled := false, single_enabled := false }⟩

/-- Array access `g_gfx.stages[i]`. Out-of-range access is undefined behaviour in
the C code; the embedding returns the default record there. -/
def stageAt (stages : List Stage) (i : Nat) : Stage := stages.getD i default

/-- Function `rizz__stage_add_child` from graphics.c. It is called from
`rizz__stage_register` before the child record has been pushed into the stage
array, so the write `_child->next = _parent->child` targets the slot one past
the end and is overwritten by the subsequent push; `List.set` at an
out-of-range index is likewise the identity, which reproduces the net effect. -/
def rizz__stage_add_child (stages : List Stage) (parent child : Nat) : List Stage :=
  let _parent := stageAt stages (rizz_to_index parent)
  let stages1 :=
    if _parent.child ≠ 0 then
      let s1 := stages.set (rizz_to_index _parent.child)
        { stageAt stages (rizz_to_index _parent.child) with prev := child }
      s1.set (rizz_to_index child)
        { stageAt s1 (rizz_to_index child) with next := _parent.child }
    else stages
  stages1.set (rizz_to_index parent)
    { stageAt stages1 (rizz_to_index parent) with child := child }

/-- Function `rizz__stage_register` from graphics.c. Debug assertions are
modelled as `none`. `parent_stage` is a stage handle (0 = no parent). Returns
the new stage's handle together with the updated stage array. The order
computation reproduces the source literally, including its shifts and masks. -/
def rizz__stage_register (stages : List Stage) (name : String) (parent_stage : Nat) :
    Option (Nat × List Stage) :=
  if ¬(parent_stage = 0 ∨ parent_stage ≤ stages.length) then none
  else if ¬(stages.length < MAX_STAGES) then none
  else
    let _stage : Stage :=
      { name := name, name_hash := sx_hash_fnv32_str name, state := .NONE,
        parent := parent_stage, child := 0, next := 0, prev := 0, order := 0,
        enabled := true, single_enabled := true }
    let stage := rizz_to_id stages.length
    let stages1 :=
      if parent_stage ≠ 0 then rizz__stage_add_child stages parent_stage stage else stages
    let depth : Nat :=
      if parent_stage ≠ 0 then
        (((stageAt stages1 (rizz_to_index parent_stage)).order >>> STAGE_ORDER_DEPTH_BITS) &&&
          STAGE_ORDER_DEPTH_MASK) + 1
      else 0
    if ¬(depth < MAX_DEPTH) then none
    else
      let order := ((depth <<< STAGE_ORDER_DEPTH_BITS) &&& STAGE_ORDER_DEPTH_MASK) |||
        (rizz_to_index stage &&& STAGE_ORDER_ID_MASK)
      some (stage, stages1 ++ [{ _stage with order := order }])

/-- Cascade loop of `rizz__stage_enable`: walks the stage's direct child list via
`next` links, setting each child's `enabled` to its own `single_enabled`. The C
loop terminates because sibling lists are acyclic; the embedding runs on
explicit fuel (callers pass the stage-array length, enough for any acyclic
sibling list). -/
def cascade_enable : List Stage → Nat → Nat → List Stage
  | stages, 0, _ => stages
  | stages, fuel + 1, child =>
    if child = 0 then stages
    else
      let idx := rizz_to_index child
      let _child := stageAt stages idx
      cascade_enable (stages.set idx { _child with enabled := _child.single_enabled })
        fuel _child.next

/-- Cascade loop of `rizz__stage_disable`: walks the stage's direct child list,
setting each child's `enabled` to `false`. -/
def cascade_disable : List Stage → Nat → Nat → List Stage
  | stages, 0, _ => stages
  | stages, fuel + 1, child =>
    if child = 0 then stages
    else
      let idx := rizz_to_index child
      let _child := stageAt stages idx
      cascade_disable (stages.set idx { _child with enabled := false }) fuel _child.next

/-- Function `rizz__stage_enable` from graphics.c: sets the stage's `enabled`
and `single_enabled`, then cascades to direct children only. The `sx_assert
(stage.id)` is modelled as `none`. -/
def rizz__stage_enable (stages : List Stage) (stage : Nat) : Option (List Stage) :=
  if stage = 0 then none
  else
    let idx := rizz_to_index stage
    let _stage := stageAt stages idx
    let stages1 := stages.set idx { _stage with enabled := true, single_enabled := true }
    some (cascade_enable stages1 stages1.length _stage.child)

/-- Function `rizz__stage_disable` from graphics.c: clears the stage's `enabled`
and `single_enabled`, then cascades `enabled := false` to direct children only. -/
def rizz__stage_disable (stages : List Stage) (stage : Nat) : Option (List Stage) :=
  if stage = 0 then none
  else
    let idx := rizz_to_index stage
    let _stage := stageAt stages idx
    let stages1 := stages.set idx { _stage with enabled := false, single_enabled := false }
    some (cascade_disable stages1 stages1.length _stage.child)

/-- Function `rizz__stage_isenabled` from graphics.c. -/
def rizz__stage_isenabled (stages : List Stage) (stage : Nat) : Option Bool :=
  if stage = 0 then none
  else some (stageAt stages (rizz_to_index stage)).enabled

/-- Scan loop of `rizz__stage_find`: first index whose `name_hash` matches. -/
def stage_find_scan (name_hash : Nat) : List Stage → Nat → Nat
  | [], _ => 4294967295
  | s :: rest, i => if s.name_hash = name_hash then rizz_to_id i else stage_find_scan name_hash rest (i + 1)

/-- Function `rizz__stage_find` from graphics.c: linear scan by name hash;
returns the handle of the first match, or the sentinel `(uint32_t)-1 =
0xffffffff` when no stage matches. -/
def rizz__stage_find (stages : List Stage) (name : String) : Nat :=
  stage_find_scan (sx_hash_fnv32_str name) stages 0

/-- Index trace of the child-list walk that `cascade_enable`/`cascade_disable`
perform, read off the (static) `next` links. The cascades only overwrite
enable flags, so this static trace coincides with the indices they visit. -/
def next_chain (stages : List Stage) : Nat → Nat → List Nat
  | 0, _ => []
  | fuel + 1, child =>
    if child = 0 then []
    else rizz_to_index child ::
      next_chain stages fuel (stageAt stages (rizz_to_index child)).next

/-- Command kind `GFX_COMMAND_APPEND_BUFFER` (graphics.c `rizz__gfx_command`). -/
def GFX_COMMAND_APPEND_BUFFER : Nat := 12

/-- Command kind `GFX_COMMAND_BEGIN_PROFILE` (graphics.c `rizz__gfx_command`). -/
def GFX_COMMAND_BEGIN_PROFILE : Nat := 13

/-- Command kind `GFX_COMMAND_STAGE_PUSH` (graphics.c `rizz__gfx_command`). -/
def GFX_COMMAND_STAGE_PUSH : Nat := 15

/-- Command reference (`rizz__gfx_cmdbuffer_ref` in graphics.c): sort key
(`stage_order << 16 | cmd_idx`, a 32-bit value), owning command-buffer index,
command kind and byte offset into that buffer's parameter arena. -/
structure Cmdref where
  key : Nat
  cmdbuffer_idx : Nat
  cmd : Nat
  params_offset : Nat
deriving DecidableEq, Repr

instance : Inhabited Cmdref := ⟨{ key := 0, cmdbuffer_idx := 0, cmd := 0, params_offset := 0 }⟩

/-- Per-thread command buffer (`rizz__gfx_cmdbuffer` in graphics.c). The
parameter arena `params_buff` is the raw byte array; `running_stage` is a stage
handle (0 when idle); `index` is the buffer's thread slot. -/
structure Cmdbuffer where
  params_buff : List UInt8
  refs : List Cmdref
  running_stage : Nat
  index : Nat
  stage_order : Nat
  cmd_idx : Nat
deriving DecidableEq, Repr

instance : Inhabited Cmdbuffer :=
  ⟨{ params_buff := [], refs := [], running_stage := 0, index := 0, stage_order := 0,
     cmd_idx := 0 }⟩

/-- Comparator `SORT_CMP` from graphics.c (`(x).key < (y).key ? -1 : 1`),
instantiated for the tim sort over command references. -/
def SORT_CMP (x y : Cmdref) : Int := if x.key < y.key then -1 else 1

/-- Insertion step of the embedded sort: place `x` before the first element it
compares strictly below. -/
def tim_sort_insert (x : Cmdref) : List Cmdref → List Cmdref
  | [] => [x]
  | y :: ys => if SORT_CMP x y < 0 then x :: y :: ys else y :: tim_sort_insert x ys

/-- Sort `rizz__gfx_tim_sort` from graphics.c (swenson `sort.h` tim sort
instantiated at `SORT_CMP`). The C tim sort is a comparison sort; its
observable contract — the output is a permutation of the input in which no
element compares strictly below its predecessor under `SORT_CMP` — is realized
here by a structurally recursive insertion sort over the same comparator.
(`SORT_CMP` returns 1 on equal keys, so the C sort gives no tie-order
guarantee either; no claim depends on tie order.) -/
def rizz__gfx_tim_sort : List Cmdref → List Cmdref
  | [] => []
  | x :: xs => tim_sort_insert x (rizz__gfx_tim_sort xs)

/-- Executor `rizz__gfx_execute_command_buffer` from graphics.c, run over one
buffer set. The `sx_assert(cb->running_stage.id == 0 && ...)` per buffer is
modelled as `none` (the main-thread assertion concerns the out-of-scope job
system). On success it returns the dispatched command references in dispatch
order — references gathered from every buffer in thread order, then sorted —
together with the drained buffers: the gather loop clears each `refs` list and
the reset loop clears each parameter arena and zeroes each `cmd_idx` (when the
total count is zero the source skips gather/sort, and all `refs` lists are
already empty, so the drained form is the same). -/
def rizz__gfx_execute_command_buffer (cmds : List Cmdbuffer) :
    Option (List Cmdref × List Cmdbuffer) :=
  if cmds.all (fun cb => cb.running_stage == 0) then
    let refs := (cmds.map (fun cb => cb.refs)).flatten
    some (rizz__gfx_tim_sort refs,
      cmds.map (fun cb => { cb with refs := [], params_buff := [], cmd_idx := 0 }))
  else none

/-- Validation `rizz__gfx_validate_stage_deps` from graphics.c: for every stage
whose state is DONE and whose parent handle is non-null, if the parent's state
is not DONE, an error naming the stage and its parent is logged and
`sx_assert(0)` fires. The source only reads stage state under the lock; the
embedding returns the list of logged (stage name, parent name) pairs, which is
nonempty exactly when the fatal assertion would fire. -/
def rizz__gfx_validate_stage_deps (stages : List Stage) : List (String × String) :=
  (List.range stages.length).filterMap fun i =>
    let _stage := stageAt stages i
    if _stage.state = .DONE ∧ _stage.parent ≠ 0 then
      let _parent := stageAt stages (rizz_to_index _stage.parent)
      if _parent.state ≠ .DONE then some (_stage.name, _parent.name) else none
    else none

/-- Global graphics state relevant to command-buffer execution (fields of the
`rizz__gfx` singleton in graphics.c). -/
structure GfxState where
  stages : List Stage
  cmd_buffers_feed : List Cmdbuffer
  cmd_buffers_render : List Cmdbuffer
deriving DecidableEq, Repr

/-- Shutdown drain `rizz__gfx_execute_command_buffers_final` from graphics.c:
validates stage dependencies (fatal on violation, modelled as `none`), executes
the render buffer set and then the feed buffer set, clears all stage states and
resets each streaming-buffer offset (the latter tracked separately by the
streaming-buffer model). Returns the two dispatch sequences and the final
state. -/
def rizz__gfx_execute_command_buffers_final (s : GfxState) :
    Option (List Cmdref × List Cmdref × GfxState) :=
  if rizz__gfx_validate_stage_deps s.stages ≠ [] then none
  else
    match rizz__gfx_execute_command_buffer s.cmd_buffers_render with
    | none => none
    | some (d1, render1) =>
      match rizz__gfx_execute_command_buffer s.cmd_buffers_feed with
      | none => none
      | some (d2, feed1) =>
        some (d1, d2,
          { stages := s.stages.map (fun st => { st with state := .NONE }),
            cmd_buffers_feed := feed1,
            cmd_buffers_render := render1 })

/-- Alignment helper `sx_align_mask(value, mask)` from sx (not under `src/`):
rounds `value` up to a multiple of `mask + 1` (the C code computes
`(value + mask) & ~mask`; for `mask = 2^k - 1` the two agree). -/
def sx_align_mask (value mask : Nat) : Nat :=
  (value + mask) - ((value + mask) % (mask + 1))

/-- Constant `SX_CONFIG_ALLOCATOR_NATURAL_ALIGNMENT` (sx/config.h default, not
under `src/`). -/
def SX_CONFIG_ALLOCATOR_NATURAL_ALIGNMENT : Nat := 16

/-- Arena append performed by `rizz__cb_alloc_params_buff` plus the caller's
writes: the arena grows by the naturally-aligned allocation size, the recorder
fills in the `size` leading bytes (`block`), and the alignment padding is left
as fresh (zero) bytes. The returned write offset is the arena length before
the append. -/
def pushParams (params block : List UInt8) (size : Nat) : List UInt8 :=
  params ++ block ++
    List.replicate
      (sx_align_mask size (SX_CONFIG_ALLOCATOR_NATURAL_ALIGNMENT - 1) - size) 0

/-- First 32 bytes that `sx_strcpy`/`sx_memcpy` place into a 32-byte name slot:
the name's bytes truncated to 31, then zero padding. -/
def nameBytes32 (s : String) : List UInt8 :=
  ((s.data.map (fun (c : Char) => UInt8.ofNat c.toNat)).take 31 ++
    List.replicate 32 0).take 32

/-- Little-endian bytes of a 32-bit value, as written into the parameter arena
for an `int` or a resource handle. -/
def intLEBytes (n : Nat) : List UInt8 :=
  [UInt8.ofNat (n % 256), UInt8.ofNat (n / 256 % 256),
   UInt8.ofNat (n / 65536 % 256), UInt8.ofNat (n / 16777216 % 256)]

/-- Little-endian bytes of a stored 64-bit pointer value (the `uint32_t*
hash_cache` slot of a profile-sample record; the deferred path stores NULL). -/
def ptrLEBytes (n : Nat) : List UInt8 :=
  intLEBytes (n % 4294967296) ++ intLEBytes (n / 4294967296 % 4294967296)

/-- Recorder `rizz__cb_record_begin_stage` from graphics.c: asserts a running
stage and a free command index, appends the 32-byte stage name to the parameter
arena and pushes a `GFX_COMMAND_STAGE_PUSH` reference keyed
`stage_order << 16 | cmd_idx`. -/
def rizz__cb_record_begin_stage (cb : Cmdbuffer) (name : String) : Option Cmdbuffer :=
  if cb.running_stage = 0 then none
  else if ¬(cb.cmd_idx < 65535) then none
  else
    let ref : Cmdref :=
      { key := (cb.stage_order <<< 16) ||| cb.cmd_idx, cmdbuffer_idx := cb.index,
        cmd := GFX_COMMAND_STAGE_PUSH, params_offset := cb.params_buff.length }
    some { cb with
      params_buff := pushParams cb.params_buff (nameBytes32 name) 32,
      refs := cb.refs ++ [ref],
      cmd_idx := cb.cmd_idx + 1 }

/-- Recorder `rizz__cb_begin_profile_sample` from graphics.c: appends a 32-byte
sample name plus the 8-byte `hash_cache` pointer value and pushes a
`GFX_COMMAND_BEGIN_PROFILE` reference. -/
def rizz__cb_begin_profile_sample (cb : Cmdbuffer) (name : String) (hash_cache : Nat) :
    Option Cmdbuffer :=
  if cb.running_stage = 0 then none
  else if ¬(cb.cmd_idx < 65535) then none
  else
    let ref : Cmdref :=
      { key := (cb.stage_order <<< 16) ||| cb.cmd_idx, cmdbuffer_idx := cb.index,
        cmd := GFX_COMMAND_BEGIN_PROFILE, params_offset := cb.params_buff.length }
    some { cb with
      params_buff := pushParams cb.params_buff (nameBytes32 name ++ ptrLEBytes hash_cache) 40,
      refs := cb.refs ++ [ref],
      cmd_idx := cb.cmd_idx + 1 }

/-- Function `rizz__cb_begin_stage` from graphics.c, acting on the calling
thread's feed command buffer. Asserts the stage's state is NONE; if the stage
is disabled it returns `false` having touched nothing; otherwise it marks the
stage SUBMITTING, installs it as the buffer's running stage (caching its
order), records the stage-push command and a "Stage: <name>" profile sample,
and returns `true`. -/
def rizz__cb_begin_stage (stages : List Stage) (cb : Cmdbuffer) (stage : Nat) :
    Option (Bool × List Stage × Cmdbuffer) :=
  let _stage := stageAt stages (rizz_to_index stage)
  if _stage.state ≠ .NONE then none
  else if _stage.enabled = false then some (false, stages, cb)
  else
    let stages1 := stages.set (rizz_to_index stage) { _stage with state := .SUBMITTING }
    let cb1 := { cb with running_stage := stage, stage_order := _stage.order }
    match rizz__cb_record_begin_stage cb1 _stage.name with
    | none => none
    | some cb2 =>
      match rizz__cb_begin_profile_sample cb2 ("Stage: " ++ _stage.name) 0 with
      | none => none
      | some cb3 => some (true, stages1, cb3)

/-- Streaming-buffer entry (`rizz__gfx_stream_buffer` in graphics.c): backend
buffer handle, current (atomic) byte offset and total byte capacity. -/
structure StreamBuffer where
  buf : Nat
  offset : Nat
  size : Nat
deriving DecidableEq, Repr

instance : Inhabited StreamBuffer := ⟨{ buf := 0, offset := 0, size := 0 }⟩

/-- Linear search over `g_gfx.stream_buffs` performed at the top of
`rizz__cb_append_buffer`: index of the first entry with the given buffer id. -/
def streamFind : List StreamBuffer → Nat → Option Nat
  | [], _ => none
  | sb :: rest, id =>
    if sb.buf = id then some 0 else (streamFind rest id).map (fun i => i + 1)

/-- State touched by `rizz__cb_append_buffer`: the streaming-buffer list, the
calling thread's feed command buffer, the backend's per-buffer last-used-frame
table (modelled from the spec: the backend exposes last-used-frame metadata per
resource, stamped by recording calls) and the current frame index. -/
structure AppendState where
  stream_buffs : List StreamBuffer
  cb : Cmdbuffer
  buffer_used_frames : List (Nat × Nat)
  frame : Nat
deriving DecidableEq, Repr

/-- Stamp of `_buff->cmn.used_frame = the__core.frame_index()`: update the
last-used frame recorded for a buffer id. -/
def stampUsedFrame (l : List (Nat × Nat)) (id frame : Nat) : List (Nat × Nat) :=
  l.map (fun p => if p.1 = id then (p.1, frame) else p)

/-- Function `rizz__cb_append_buffer` from graphics.c: finds the streaming
entry for the target buffer (assert: found), asserts the resulting offset does
not exceed capacity, fetch-adds the byte count onto the entry's offset keeping
the pre-add value as this call's write offset, then records an
`GFX_COMMAND_APPEND_BUFFER` command (assert: a stage is running and the command
index is free) whose parameters are the stream index, the buffer handle, the
write offset, the byte count and the data bytes, stamps the buffer's last-used
frame, and returns the write offset. Assertion failures are `none`. -/
def rizz__cb_append_buffer (st : AppendState) (buf : Nat) (data : List UInt8) :
    Option (Nat × AppendState) :=
  match streamFind st.stream_buffs buf with
  | none => none
  | some index =>
    let sbuff := st.stream_buffs.getD index default
    if ¬(sbuff.offset + data.length ≤ sbuff.size) then none
    else
      let stream_offset := sbuff.offset
      let stream_buffs1 :=
        st.stream_buffs.set index { sbuff with offset := sbuff.offset + data.length }
      let cb := st.cb
      if cb.running_stage = 0 then none
      else if ¬(cb.cmd_idx < 65535) then none
      else
        let block := intLEBytes index ++ intLEBytes buf ++ intLEBytes stream_offset ++
          intLEBytes data.length ++ data
        let ref : Cmdref :=
          { key := (cb.stage_order <<< 16) ||| cb.cmd_idx, cmdbuffer_idx := cb.index,
            cmd := GFX_COMMAND_APPEND_BUFFER, params_offset := cb.params_buff.length }
        let cb1 := { cb with
          params_buff := pushParams cb.params_buff block (data.length + 16),
          refs := cb.refs ++ [ref],
          cmd_idx := cb.cmd_idx + 1 }
        some (stream_offset,
          { st with
            stream_buffs := stream_buffs1
            cb := cb1
            buffer_used_frames := stampUsedFrame st.buffer_used_frames buf st.frame })

/-- Sequential composition of `rizz__cb_append_buffer` calls on one target
buffer within one frame, collecting the returned write offsets. -/
def appendMany (st : AppendState) (buf : Nat) : List (List UInt8) → Option (List Nat × AppendState)
  | [] => some ([], st)
  | d :: rest =>
    match rizz__cb_append_buffer st buf d with
    | none => none
    | some (o, st1) =>
      match appendMany st1 buf rest with
      | none => none
      | some (os, st2) => some (o :: os, st2)

/-- Subimage argument of an image-update call (`sg_image_content` slot in
graphics.c): a data pointer — `none` models NULL, `some l` models a pointer to
the bytes `l` — together with the declared byte size. -/
structure SubimageData where
  ptr : Option (List UInt8)
  size : Nat
deriving DecidableEq, Repr

/-- Recorded subimage slot of the copied `sg_image_content` descriptor: the
`ptr` field re-used as a byte offset relative to the copied data
(`data_copy->subimage[face][mip].ptr = (const void*)(buff - start_buff)`), plus
the byte size. Null entries stay zeroed (`sx_memset(data_copy, 0x0, ...)`). -/
structure SubimageSlot where
  off : Nat
  size : Nat
deriving DecidableEq, Repr

/-- Copy loop of `rizz__cb_update_image` over the flattened face-major,
mip-major subimage grid: for each subimage with a non-NULL pointer, copy its
`size` bytes into the arena cursor (modelled as the pointed-to bytes, padded
with zeroes if the list is shorter than the declared size — the C `memcpy`
would read out of bounds there), store the cursor offset and size in the copied
descriptor, and advance the cursor. Returns the descriptor slots and the
payload bytes laid down after the descriptor. -/
def record_subimages : List SubimageData → Nat → List SubimageSlot × List UInt8
  | [], _ => ([], [])
  | s :: rest, off =>
    match s.ptr with
    | some l =>
      let copied := (l ++ List.replicate s.size 0).take s.size
      let r := record_subimages rest (off + s.size)
      ({ off := off, size := s.size } :: r.1, copied ++ r.2)
    | none =>
      let r := record_subimages rest off
      ({ off := 0, size := 0 } :: r.1, r.2)

/-- Byte read from a raw store; reads beyond the written extent return the
fresh-memory byte 0. -/
def readByte (bytes : List UInt8) (i : Nat) : Nat := (bytes.getD i 0).toNat

/-- Little-endian read of a 32-bit value (an `int` or a resource handle). -/
def readLE4 (bytes : List UInt8) (i : Nat) : Nat :=
  readByte bytes i + 256 * readByte bytes (i + 1) + 65536 * readByte bytes (i + 2) +
    16777216 * readByte bytes (i + 3)

/-- Little-endian read of a stored 64-bit pointer value. -/
def readLE8 (bytes : List UInt8) (i : Nat) : Nat :=
  readLE4 bytes i + 4294967296 * readLE4 bytes (i + 4)

/-- Byte layout of one `sg_subimage_content` slot of the copied descriptor on
the 64-bit target: the `ptr` field (holding the relative offset) at byte 0,
the `int size` at byte 8, then struct padding to 16 bytes. -/
def encodeSlot (s : SubimageSlot) : List UInt8 :=
  ptrLEBytes s.off ++ intLEBytes s.size ++ List.replicate 4 0

/-- Serialized `sg_image_content` descriptor: the subimage slots in face-major,
mip-major order (zeroed slots for absent subimages, as after the `sx_memset`). -/
def encodeSlots (slots : List SubimageSlot) : List UInt8 :=
  (slots.map encodeSlot).flatten

/-- Parameter arena of one command buffer, at the level of detail the
image-update path needs: `bytes` is the contents of the backing store —
including bytes past the official extent, which writes can still reach — and
`len` is the arena's allocated length (the `sx_array` count that
`rizz__cb_alloc_params_buff` advances and that the next allocation starts
from). -/
structure Arena where
  bytes : List UInt8
  len : Nat
deriving DecidableEq, Repr

/-- Raw store update: place `blk` at byte offset `off`, keeping bytes outside
the written range (zero-filling any gap of never-written fresh memory). -/
def writeBytes (bytes : List UInt8) (off : Nat) (blk : List UInt8) : List UInt8 :=
  (bytes ++ List.replicate (off - bytes.length) 0).take off ++ blk ++
    bytes.drop (off + blk.length)

/-- A recording call's parameter allocation-and-write into the arena
(`rizz__cb_alloc_params_buff` plus the caller's writes, as in `pushParams`):
the `size`-byte block `blk` is placed at the official cursor `len` —
overwriting whatever bytes sit there — and the cursor advances by the
naturally-aligned allocation size. -/
def arenaPushParams (a : Arena) (blk : List UInt8) (size : Nat) : Arena :=
  { bytes := writeBytes a.bytes a.len blk
    len := a.len + sx_align_mask size (SX_CONFIG_ALLOCATOR_NATURAL_ALIGNMENT - 1) }

/-- Record half of `rizz__cb_update_image` from graphics.c, restricted to the
parameter serialization (the surrounding command-reference push and last-used
stamp follow the common recording protocol embedded above). The source
computes `image_size` — the total payload size — but does not include it in
the allocation: `rizz__cb_alloc_params_buff` is asked for only
`sizeof(sg_image) + sizeof(sg_image_content)` bytes, yet the copy loop writes
the subimage payload immediately after the copied descriptor, past the
allocated block. So the arena cursor advances only over the image handle and
descriptor, and the payload bytes are left outside any allocation. The
face-major, mip-major subimage grid is flattened to a list kept at its general
length; the source's grid has `SG_CUBEFACE_NUM * SG_MAX_MIPMAPS = 96` slots of
16 bytes each. -/
def rizz__cb_update_image (a : Arena) (img : Nat) (data : List SubimageData) : Arena :=
  let _image_size := (data.map (fun s => s.size)).sum
  let offset := a.len
  let r := record_subimages data 0
  let blk := intLEBytes img ++ encodeSlots r.1 ++ r.2
  { bytes := writeBytes a.bytes offset blk
    len := offset + sx_align_mask (4 + 16 * data.length)
      (SX_CONFIG_ALLOCATOR_NATURAL_ALIGNMENT - 1) }

/-- Replay half, `rizz__cb_run_update_image` from graphics.c, reading the
parameter block recorded for a grid of `n` subimage slots at byte `offset`:
reads the image handle and the copied descriptor, converts each stored
relative offset back to a pointer (`start_buff + (intptr_t)ptr`, `start_buff`
being the first byte after the descriptor) and hands the backend, per subimage
slot with a non-zero size, the `size` bytes found there at replay time;
zero-size slots keep their NULL pointer. -/
def rizz__cb_run_update_image (a : Arena) (offset n : Nat) :
    Nat × List (Option (List UInt8)) :=
  (readLE4 a.bytes offset,
    (List.range n).map (fun k =>
      let off := readLE8 a.bytes (offset + 4 + 16 * k)
      let size := readLE4 a.bytes (offset + 4 + 16 * k + 8)
      if size ≠ 0 then
        some ((a.bytes.drop (offset + 4 + 16 * n + off)).take size)
      else none))

/-- Backend resource pools as consulted by the garbage collector. Modelled from
the spec: the backend (sokol, not under `src/`) exposes a last-used-frame query
per live resource; `_sg_lookup_*` returns NULL — here `none` — for dead or
mismatched handles. Buffers also carry their usage (streaming or not). -/
structure SgPools where
  buffers : List (Nat × (Nat × Bool))
  pipelines : List (Nat × Nat)
  passes : List (Nat × Nat)
  images : List (Nat × Nat)
deriving DecidableEq, Repr

/-- Assoc-list lookup standing for `_sg_lookup_*`. -/
def poolLookup (pool : List (Nat × Nat)) (id : Nat) : Option Nat :=
  (pool.find? (fun p => p.1 == id)).map (fun p => p.2)

/-- Lookup for buffers, returning (last-used frame, is-stream-usage). -/
def poolLookupBuffer (pool : List (Nat × (Nat × Bool))) (id : Nat) : Option (Nat × Bool) :=
  (pool.find? (fun p => p.1 == id)).map (fun p => p.2)

/-- Removal of a streaming-buffer entry by buffer id (the `sx_array_pop` inside
the buffer branch of `rizz__gfx_collect_garbage`; first match only, as in the
C loop which breaks after popping). -/
def removeStreamBuff : List StreamBuffer → Nat → List StreamBuffer
  | [], _ => []
  | sb :: rest, id => if sb.buf = id then rest else sb :: removeStreamBuff rest id

/-- Buffer queue scan of `rizz__gfx_collect_garbage`: a queued buffer is
destroyed exactly when `frame > used_frame + 1`; a destroyed streaming buffer
is also removed from the streaming list. Dereferencing a dead handle is
undefined in C and modelled as `none`. Returns (remaining queue, destroyed
handles, streaming list). `sx_array_pop` removal order is immaterial to the
sets involved; the embedding keeps queue order. -/
def gcScanBuffers (frame : Nat) (pool : List (Nat × (Nat × Bool))) :
    List Nat → List StreamBuffer → Option (List Nat × List Nat × List StreamBuffer)
  | [], sbs => some ([], [], sbs)
  | id :: rest, sbs =>
    match poolLookupBuffer pool id with
    | none => none
    | some (used_frame, is_stream) =>
      if frame > used_frame + 1 then
        let sbs1 := if is_stream then removeStreamBuff sbs id else sbs
        match gcScanBuffers frame pool rest sbs1 with
        | none => none
        | some (rem, des, sbs2) => some (rem, id :: des, sbs2)
      else
        match gcScanBuffers frame pool rest sbs with
        | none => none
        | some (rem, des, sbs2) => some (id :: rem, des, sbs2)

/-- Pipeline queue scan of `rizz__gfx_collect_garbage`: destroy when past the
one-frame grace period, also dropping the handle from the hot-reload pipeline
list `g_gfx.pips`. Returns (remaining queue, destroyed, pips list). -/
def gcScanPips (frame : Nat) (pool : List (Nat × Nat)) :
    List Nat → List Nat → Option (List Nat × List Nat × List Nat)
  | [], pips => some ([], [], pips)
  | id :: rest, pips =>
    match poolLookup pool id with
    | none => none
    | some used_frame =>
      if frame > used_frame + 1 then
        match gcScanPips frame pool rest (pips.erase id) with
        | none => none
        | some (rem, des, pips2) => some (rem, id :: des, pips2)
      else
        match gcScanPips frame pool rest pips with
        | none => none
        | some (rem, des, pips2) => some (id :: rem, des, pips2)

/-- Shader queue scan of `rizz__gfx_collect_garbage`. The source looks the
shader id up with `_sg_lookup_pipeline` (handled: the lookup may return NULL)
and destroys it when past the grace period — but its `else` branch (marked
"TODO (FIXME)" in the source) pops the entry from the queue in every other
case too, so no shader ever stays queued. Returns (remaining queue, destroyed
handles). -/
def gcScanShaders (frame : Nat) (pool : List (Nat × Nat)) : List Nat → List Nat × List Nat
  | [] => ([], [])
  | id :: rest =>
    let r := gcScanShaders frame pool rest
    match poolLookup pool id with
    | some used_frame =>
      if frame > used_frame + 1 then (r.1, id :: r.2) else (r.1, r.2)
    | none => (r.1, r.2)

/-- Pass/image queue scan of `rizz__gfx_collect_garbage`: destroy when past the
grace period, keep queued otherwise. Returns (remaining queue, destroyed). -/
def gcScanSimple (frame : Nat) (pool : List (Nat × Nat)) :
    List Nat → Option (List Nat × List Nat)
  | [] => some ([], [])
  | id :: rest =>
    match poolLookup pool id with
    | none => none
    | some used_frame =>
      match gcScanSimple frame pool rest with
      | none => none
      | some (rem, des) =>
        if frame > used_frame + 1 then some (rem, id :: des) else some (id :: rem, des)

/-- Garbage-collection state: the five typed deferred-destroy queues, the two
shadow tracking tables (streaming-buffer list, hot-reload pipeline list) and
the backend pools. -/
structure GcState where
  destroy_buffers : List Nat
  destroy_shaders : List Nat
  destroy_pips : List Nat
  destroy_passes : List Nat
  destroy_images : List Nat
  stream_buffs : List StreamBuffer
  pips : List Nat
  pools : SgPools
deriving DecidableEq, Repr

/-- Result of one garbage-collection pass: updated state plus the handles
physically destroyed, per kind. -/
structure GcResult where
  state : GcState
  destroyed_buffers : List Nat
  destroyed_shaders : List Nat
  destroyed_pips : List Nat
  destroyed_passes : List Nat
  destroyed_images : List Nat
deriving DecidableEq, Repr

/-- Function `rizz__gfx_collect_garbage(frame)` from graphics.c, scanning the
five queues in source order (buffers, pipelines, shaders, passes, images). -/
def rizz__gfx_collect_garbage (frame : Nat) (s : GcState) : Option GcResult :=
  match gcScanBuffers frame s.pools.buffers s.destroy_buffers s.stream_buffs with
  | none => none
  | some (bq, bd, sbs) =>
    match gcScanPips frame s.pools.pipelines s.destroy_pips s.pips with
    | none => none
    | some (pq, pd, pips1) =>
      let sh := gcScanShaders frame s.pools.pipelines s.destroy_shaders
      match gcScanSimple frame s.pools.passes s.destroy_passes with
      | none => none
      | some (paq, pad) =>
        match gcScanSimple frame s.pools.images s.destroy_images with
        | none => none
        | some (iq, idd) =>
          some { state := { s with
                   destroy_buffers := bq
                   destroy_shaders := sh.1
                   destroy_pips := pq
                   destroy_passes := paq
                   destroy_images := iq
                   stream_buffs := sbs
                   pips := pips1 }
                 destroyed_buffers := bd
                 destroyed_shaders := sh.2
                 destroyed_pips := pd
                 destroyed_passes := pad
                 destroyed_images := idd }

/-! Helper lemmas about stage-array access. -/

lemma stageAt_set_self (l : List Stage) (i : Nat) (a : Stage) (h : i < l.length) :
    stageAt (l.set i a) i = a := by
  simp [stageAt, List.getD_eq_getElem?_getD, List.getElem?_set_self h]

lemma stageAt_set_ne (l : List Stage) {i j : Nat} (a : Stage) (h : i ≠ j) :
    stageAt (l.set i a) j = stageAt l j := by
  simp [stageAt, List.getD_eq_getElem?_getD, List.getElem?_set_ne h]

/-! Claim C2. -/

/-- First registration of the C2 scenario: a root stage. -/
def c2Root : Nat × List Stage := (rizz__stage_register [] "a" 0).getD (0, [])

/-- Second registration of the C2 scenario: a child under the root. -/
def c2Two : Nat × List Stage := (rizz__stage_register c2Root.2 "b" c2Root.1).getD (0, [])

/-- Registration of a parent/child chain of `n + 1` stages (depth levels). -/
def c2Chain : Nat → Option (Nat × List Stage)
  | 0 => rizz__stage_register [] "s" 0
  | n + 1 =>
    match c2Chain n with
    | none => none
    | some (h, stages) => rizz__stage_register stages "s" h

/-- C2: the claim fails on the code. Registering a child under a registered
root succeeds, but the depth field (upper 6 bits) of the child's 16-bit order
key is 0, not the parent's depth field plus one: `rizz__stage_register` packs
the depth with `(depth << STAGE_ORDER_DEPTH_BITS) & STAGE_ORDER_DEPTH_MASK`
(shifting by 6 instead of the 10 id bits, which zeroes every depth below 16)
and extracts the parent depth with
`(order >> STAGE_ORDER_DEPTH_BITS) & STAGE_ORDER_DEPTH_MASK` (always 0), so
the `depth < MAX_DEPTH` assertion can never fire and a chain 65 depth levels
deep registers successfully instead of failing. -/
theorem stage_register_depth_field_bug :
    (rizz__stage_register [] "a" 0 = some c2Root) ∧
    (rizz__stage_register c2Root.2 "b" c2Root.1 = some c2Two) ∧
    (stageAt c2Two.2 1).parent = c2Root.1 ∧
    (stageAt c2Two.2 1).order >>> STAGE_ORDER_ID_BITS = 0 ∧
    ¬((stageAt c2Two.2 1).order >>> STAGE_ORDER_ID_BITS =
      (stageAt c2Two.2 0).order >>> STAGE_ORDER_ID_BITS + 1) ∧
    (c2Chain 64).isSome = true := by decide

/-! Claim C4. -/

/-- Garbage-collection state of the C4 scenario: shader handle 7 sits in the
deferred-destroy queue with last-used frame 5 (the pool consulted by the
shader branch — the pipeline pool, as in the source — reports used frame 5). -/
def c4State : GcState :=
  { destroy_buffers := []
    destroy_shaders := [7]
    destroy_pips := []
    destroy_passes := []
    destroy_images := []
    stream_buffs := []
    pips := []
    pools := { buffers := [], pipelines := [(7, 5)], passes := [], images := [] } }

/-- C4: the claim fails on the code for the shader queue. A shader queued with
last-used frame F = 5 is indeed not destroyed by the collection at frame
F + 1 = 6, but the `else` branch of the shader loop (marked "TODO (FIXME)" in
the source) pops it from the queue anyway, so it is no longer queued for a
later pass and the collection at frame F + 2 = 7 destroys nothing either: the
shader is never physically destroyed. -/
theorem collect_garbage_shader_queue_bug :
    ((rizz__gfx_collect_garbage 6 c4State).map
      (fun r => (r.destroyed_shaders, r.state.destroy_shaders)) = some ([], [])) ∧
    (((rizz__gfx_collect_garbage 6 c4State).bind
      (fun r => rizz__gfx_collect_garbage 7 r.state)).map
      (fun r => (r.destroyed_shaders, r.state.destroy_shaders)) = some ([], [])) := by decide

/-! Claim C7. -/

/-- C7: beginning a disabled stage is a pure skip. If the stage's lifecycle
state is NONE (the function's entry assertion) and its `enabled` flag is
false, `rizz__cb_begin_stage` returns `false` with the stage array and the
calling thread's command buffer unchanged: the stage stays NONE, no command is
recorded and no running stage is installed. -/
theorem cb_begin_stage_disabled_noop (stages : List Stage) (cb : Cmdbuffer) (stage : Nat)
    (hstage : stage ≠ 0) (hvalid : rizz_to_index stage < stages.length)
    (hnone : (stageAt stages (rizz_to_index stage)).state = StageState.NONE)
    (hdis : (stageAt stages (rizz_to_index stage)).enabled = false) :
    rizz__cb_begin_stage stages cb stage = some (false, stages, cb) := by
  simp [rizz__cb_begin_stage, hnone, hdis]

/-- Stage table of the C7 witness: one registered stage, disabled. -/
def c7Stages : List Stage :=
  [{ name := "ui", name_hash := sx_hash_fnv32_str "ui", state := .NONE, parent := 0,
     child := 0, next := 0, prev := 0, order := 0, enabled := false,
     single_enabled := false }]

/-- Command buffer of the C7 witness. -/
def c7Cb : Cmdbuffer := default

/-- Witness for C7 at a concrete disabled stage. -/
theorem cb_begin_stage_disabled_noop_witness :
    rizz__cb_begin_stage c7Stages c7Cb 1 = some (false, c7Stages, c7Cb) :=
  cb_begin_stage_disabled_noop c7Stages c7Cb 1 (by decide) (by decide) (by decide) (by decide)

/-! Claim C10. -/

lemma stage_find_scan_not_found (hsh : Nat) (l : List Stage) :
    ∀ i, (∀ s ∈ l, s.name_hash ≠ hsh) → stage_find_scan hsh l i = 4294967295 := by
  induction l with
  | nil => intro i _; rfl
  | cons s rest ih =>
    intro i hall
    have hs : s.name_hash ≠ hsh := hall s (by simp)
    simp only [stage_find_scan, if_neg hs]
    exact ih (i + 1) (fun x hx => hall x (by simp [hx]))

/-- C10: when no registered stage's name hash matches the probed name,
`rizz__stage_find` returns the sentinel handle `(uint32_t)-1 = 0xffffffff`,
which is distinct from the null handle 0 that the other stage operations use
for "no stage / no parent" — so a comparison against the null handle does not
detect the not-found case. -/
theorem stage_find_not_found_sentinel (stages : List Stage) (name : String)
    (h : ∀ s ∈ stages, s.name_hash ≠ sx_hash_fnv32_str name) :
    rizz__stage_find stages name = 4294967295 ∧ rizz__stage_find stages name ≠ 0 := by
  have hscan := stage_find_scan_not_found (sx_hash_fnv32_str name) stages 0 h
  refine ⟨hscan, ?_⟩
  unfold rizz__stage_find
  rw [hscan]
  decide

/-- Stage table of the C10 witness: one stage named "shadow". -/
def c10Stages : List Stage :=
  [{ name := "shadow", name_hash := sx_hash_fnv32_str "shadow", state := .NONE, parent := 0,
     child := 0, next := 0, prev := 0, order := 0, enabled := true, single_enabled := true }]

/-- Witness for C10 at a concrete miss ("missing" hashes to no stage). -/
theorem stage_find_not_found_sentinel_witness :
    rizz__stage_find c10Stages "missing" = 4294967295 ∧
    rizz__stage_find c10Stages "missing" ≠ 0 :=
  stage_find_not_found_sentinel c10Stages "missing" (by decide)

/-! Claim C6. -/

/-- Condition under which the dependency-validation loop flags the stage at
index `i`: its state is DONE, its parent handle is non-null, and the parent's
state is not DONE. -/
def stage_dep_violation (stages : List Stage) (i : Nat) : Prop :=
  (stageAt stages i).state = .DONE ∧ (stageAt stages i).parent ≠ 0 ∧
    (stageAt stages (rizz_to_index (stageAt stages i).parent)).state ≠ .DONE

instance (stages : List Stage) (i : Nat) : Decidable (stage_dep_violation stages i) := by
  unfold stage_dep_violation
  infer_instance

/-- C6: `rizz__gfx_validate_stage_deps` logs nothing (and hence the fatal
assertion does not fire; the function only reads stage state, so no stage
state is modified) exactly when no registered stage is DONE with a non-DONE
parent; and every logged error names the violating stage and its parent. -/
theorem gfx_validate_stage_deps_spec (stages : List Stage) :
    (rizz__gfx_validate_stage_deps stages = [] ↔
      ∀ i, i < stages.length → ¬ stage_dep_violation stages i) ∧
    (∀ p ∈ rizz__gfx_validate_stage_deps stages,
      ∃ i, i < stages.length ∧ stage_dep_violation stages i ∧
        p = ((stageAt stages i).name,
          (stageAt stages (rizz_to_index (stageAt stages i).parent)).name)) := by
  constructor
  · rw [rizz__gfx_validate_stage_deps, List.filterMap_eq_nil_iff]
    constructor
    · intro h i hi hviol
      have := h i (List.mem_range.mpr hi)
      simp only [stage_dep_violation] at hviol
      simp [hviol.1, hviol.2.1, hviol.2.2] at this
    · intro h i hi
      have hi' := List.mem_range.mp hi
      have := h i hi'
      simp only [stage_dep_violation, not_and] at this
      by_cases h1 : (stageAt stages i).state = .DONE ∧ (stageAt stages i).parent ≠ 0
      · have h2 := this h1.1 h1.2
        simp only [not_not] at h2
        simp [h1.1, h1.2, h2]
      · simp only [if_neg h1]
  · intro p hp
    rw [rizz__gfx_validate_stage_deps, List.mem_filterMap] at hp
    obtain ⟨i, hi, hf⟩ := hp
    refine ⟨i, List.mem_range.mp hi, ?_⟩
    by_cases h1 : (stageAt stages i).state = .DONE ∧ (stageAt stages i).parent ≠ 0
    · rw [if_pos h1] at hf
      by_cases h2 : (stageAt stages (rizz_to_index (stageAt stages i).parent)).state ≠ .DONE
      · rw [if_pos h2] at hf
        exact ⟨⟨h1.1, h1.2, h2⟩, (Option.some_inj.mp hf).symm⟩
      · rw [if_neg h2] at hf
        exact absurd hf (by simp)
    · rw [if_neg h1] at hf
      exact absurd hf (by simp)

/-- Stage table of the C6 witness: "shadow" (root, never begun this frame) and
"opaque" (its child, marked DONE). -/
def c6Stages : List Stage :=
  [{ name := "shadow", name_hash := sx_hash_fnv32_str "shadow", state := .NONE, parent := 0,
     child := 2, next := 0, prev := 0, order := 0, enabled := true, single_enabled := true },
   { name := "opaque", name_hash := sx_hash_fnv32_str "opaque", state := .DONE, parent := 1,
     child := 0, next := 0, prev := 0, order := 1, enabled := true, single_enabled := true }]

/-- Witness for C6: the "opaque"-done-under-unrendered-"shadow" scenario is
flagged with a diagnostic naming both stages. -/
theorem gfx_validate_stage_deps_spec_witness :
    ∃ i, i < c6Stages.length ∧ stage_dep_violation c6Stages i ∧
      ("opaque", "shadow") = ((stageAt c6Stages i).name,
        (stageAt c6Stages (rizz_to_index (stageAt c6Stages i).parent)).name) :=
  (gfx_validate_stage_deps_spec c6Stages).2 ("opaque", "shadow") (by decide)

/-! Claim C8. -/

/-- Subimage payload of the C8 scenario: 16 bytes. -/
def c8Payload : List UInt8 := [1, 2, 3, 4, 5, 6, 7, 8, 9, 10, 11, 12, 13, 14, 15, 16]

/-- Subimage grid of the C8 scenario: one slot carrying the 16-byte payload.
Its header (image handle + descriptor) is 4 + 16 = 20 bytes, so the allocation
rounds up to 32 bytes and the payload occupies bytes 20..35 — the last four of
which lie past the allocated block. -/
def c8Data : List SubimageData := [{ ptr := some c8Payload, size := 16 }]

/-- Arena after recording the C8 image update into an empty parameter arena. -/
def c8Arena1 : Arena := rizz__cb_update_image { bytes := [], len := 0 } 9 c8Data

/-- Arena after a later recording call of the same frame allocates a 32-byte
parameter block (the fate of any subsequent parameter-carrying command). -/
def c8Arena2 : Arena := arenaPushParams c8Arena1 (List.replicate 32 170) 32

/-- C8: the claim fails on the code. `rizz__cb_update_image` computes the
total subimage payload size (`image_size`) and then never uses it, allocating
only `sizeof(sg_image) + sizeof(sg_image_content)` from the parameter arena
while the copy loop writes the payload past that block. Immediately after
recording, the stored relative offsets still resolve to the original bytes
(first conjunct — the conversion logic itself matches the claim), but the
arena cursor does not cover the payload, so the next parameter-carrying
command recorded into the same buffer is allocated those bytes and overwrites
the payload tail before replay runs at frame commit: replay hands the backend
the clobbered bytes, not the bytes supplied at record time. -/
theorem cb_update_image_payload_clobbered :
    ((rizz__cb_run_update_image c8Arena1 0 1).2 = [some c8Payload]) ∧
    (c8Arena1.len = 32) ∧
    ((rizz__cb_run_update_image c8Arena2 0 1).1 = 9) ∧
    ((rizz__cb_run_update_image c8Arena2 0 1).2 =
      [some [1, 2, 3, 4, 5, 6, 7, 8, 9, 10, 11, 12, 170, 170, 170, 170]]) ∧
    ((rizz__cb_run_update_image c8Arena2 0 1).2 ≠ [some c8Payload]) := by decide

/-! Claim C1. -/

lemma SORT_CMP_neg_iff (x y : Cmdref) : SORT_CMP x y < 0 ↔ x.key < y.key := by
  unfold SORT_CMP
  split
  · exact iff_of_true (by norm_num) ‹_›
  · exact iff_of_false (by norm_num) ‹_›

lemma tim_sort_insert_perm (x : Cmdref) (l : List Cmdref) :
    (tim_sort_insert x l).Perm (x :: l) := by
  induction l with
  | nil => rfl
  | cons y ys ih =>
    simp only [tim_sort_insert]
    split
    · rfl
    · exact (ih.cons y).trans (List.Perm.swap x y ys)

lemma tim_sort_perm (l : List Cmdref) : (rizz__gfx_tim_sort l).Perm l := by
  induction l with
  | nil => rfl
  | cons x xs ih =>
    exact (tim_sort_insert_perm x (rizz__gfx_tim_sort xs)).trans (ih.cons x)

lemma tim_sort_insert_sorted (x : Cmdref) (l : List Cmdref)
    (h : l.Pairwise (fun a b => a.key ≤ b.key)) :
    (tim_sort_insert x l).Pairwise (fun a b => a.key ≤ b.key) := by
  induction l with
  | nil =>
    exact List.Pairwise.cons (fun b hb => absurd hb (List.not_mem_nil b)) List.Pairwise.nil
  | cons y ys ih =>
    rw [List.pairwise_cons] at h
    simp only [tim_sort_insert]
    split
    case isTrue hlt =>
      have hxy : x.key < y.key := (SORT_CMP_neg_iff x y).mp hlt
      refine List.Pairwise.cons ?_ (List.Pairwise.cons h.1 h.2)
      intro b hb
      rcases List.mem_cons.mp hb with rfl | hb
      · exact Nat.le_of_lt hxy
      · exact Nat.le_of_lt (Nat.lt_of_lt_of_le hxy (h.1 b hb))
    case isFalse hge =>
      have hyx : y.key ≤ x.key := by
        by_contra hc
        exact hge ((SORT_CMP_neg_iff x y).mpr (Nat.lt_of_not_le hc))
      refine List.Pairwise.cons ?_ (ih h.2)
      intro b hb
      rcases List.mem_cons.mp ((tim_sort_insert_perm x ys).mem_iff.mp hb) with rfl | hb
      · exact hyx
      · exact h.1 b hb

lemma tim_sort_sorted (l : List Cmdref) :
    (rizz__gfx_tim_sort l).Pairwise (fun a b => a.key ≤ b.key) := by
  induction l with
  | nil => exact List.Pairwise.nil
  | cons x xs ih => exact tim_sort_insert_sorted x (rizz__gfx_tim_sort xs) ih

/-- C1: executing a command-buffer set (all recording finished, i.e. no buffer
still has a running stage) dispatches exactly the recorded command references
— the dispatch sequence is a permutation of the concatenated per-thread
reference lists — in non-decreasing sort-key order; and since the upper 16
bits of a recorded key are its stage's order value, any reference whose key
has a strictly smaller upper-16-bit order field is dispatched strictly before
any reference with a larger one. -/
theorem gfx_execute_command_buffer_order (cmds : List Cmdbuffer) (out : List Cmdref)
    (cleared : List Cmdbuffer)
    (h : rizz__gfx_execute_command_buffer cmds = some (out, cleared)) :
    out.Perm ((cmds.map (fun cb => cb.refs)).flatten) ∧
    out.Pairwise (fun a b => a.key ≤ b.key) ∧
    (∀ i j, i < out.length → j < out.length →
      (out.getD i default).key / 65536 < (out.getD j default).key / 65536 → i < j) := by
  unfold rizz__gfx_execute_command_buffer at h
  split at h
  case isFalse => exact absurd h (by simp)
  case isTrue hall =>
    simp only [Option.some.injEq, Prod.mk.injEq] at h
    obtain ⟨hout, -⟩ := h
    subst hout
    refine ⟨tim_sort_perm _, tim_sort_sorted _, ?_⟩
    intro i j hi hj hlt
    have hgetD : ∀ k (hk : k < (rizz__gfx_tim_sort
        ((cmds.map (fun cb => cb.refs)).flatten)).length),
        (rizz__gfx_tim_sort ((cmds.map (fun cb => cb.refs)).flatten)).getD k default =
        (rizz__gfx_tim_sort ((cmds.map (fun cb => cb.refs)).flatten))[k] := by
      intro k hk
      rw [List.getD_eq_getElem?_getD, List.getElem?_eq_getElem hk]
      rfl
    rw [hgetD i hi, hgetD j hj] at hlt
    by_contra hnot
    rcases Nat.lt_or_ge j i with hji | hij
    · have hle := (List.pairwise_iff_getElem.mp (tim_sort_sorted _)) j i hj hi hji
      exact absurd hlt (Nat.not_lt.mpr (Nat.div_le_div_right hle))
    · have : j = i := Nat.le_antisymm (Nat.not_lt.mp hnot) hij
      subst this
      exact absurd hlt (lt_irrefl _)

/-- Command buffers of the C1 witness: two threads, thread 0 recorded two
commands in a stage of order 2, thread 1 one command in a stage of order 0. -/
def c1Cmds : List Cmdbuffer :=
  [{ params_buff := [0], running_stage := 0, index := 0, stage_order := 2, cmd_idx := 2,
     refs := [{ key := 131072, cmdbuffer_idx := 0, cmd := 0, params_offset := 0 },
              { key := 131073, cmdbuffer_idx := 0, cmd := 7, params_offset := 0 }] },
   { params_buff := [], running_stage := 0, index := 1, stage_order := 0, cmd_idx := 1,
     refs := [{ key := 5, cmdbuffer_idx := 1, cmd := 7, params_offset := 0 }] }]

/-- Dispatch order produced by executing the C1 witness buffers. -/
def c1Out : List Cmdref := ((rizz__gfx_execute_command_buffer c1Cmds).getD ([], [])).1

/-- Drained buffers produced by executing the C1 witness buffers. -/
def c1Cleared : List Cmdbuffer := ((rizz__gfx_execute_command_buffer c1Cmds).getD ([], [])).2

/-- Witness for C1 at the concrete two-thread recording. -/
theorem gfx_execute_command_buffer_order_witness :
    c1Out.Perm ((c1Cmds.map (fun cb => cb.refs)).flatten) ∧
    c1Out.Pairwise (fun a b => a.key ≤ b.key) ∧ 0 < 1 :=
  ⟨(gfx_execute_command_buffer_order c1Cmds c1Out c1Cleared rfl).1,
   (gfx_execute_command_buffer_order c1Cmds c1Out c1Cleared rfl).2.1,
   (gfx_execute_command_buffer_order c1Cmds c1Out c1Cleared rfl).2.2 0 1
     (by decide) (by decide) (by decide)⟩

/-! Claim C9. -/

lemma execute_command_buffer_drained (cmds : List Cmdbuffer) (out : List Cmdref)
    (cleared : List Cmdbuffer)
    (h : rizz__gfx_execute_command_buffer cmds = some (out, cleared)) :
    ∀ cb ∈ cleared, cb.refs = [] ∧ cb.params_buff = [] ∧ cb.cmd_idx = 0 := by
  unfold rizz__gfx_execute_command_buffer at h
  split at h
  · simp only [Option.some.injEq, Prod.mk.injEq] at h
    obtain ⟨-, hcl⟩ := h
    subst hcl
    intro cb hcb
    rw [List.mem_map] at hcb
    obtain ⟨x, -, hx⟩ := hcb
    subst hx
    exact ⟨rfl, rfl, rfl⟩
  · exact absurd h (by simp)

/-- C9: after the final shutdown execution — which runs the executor over the
render buffer set and then over the feed buffer set — every per-thread command
buffer in both resulting sets is drained: no pending command references, an
empty parameter arena, and command index 0. -/
theorem gfx_execute_final_drains (s : GfxState) (d1 d2 : List Cmdref) (s' : GfxState)
    (h : rizz__gfx_execute_command_buffers_final s = some (d1, d2, s')) :
    ∀ cb : Cmdbuffer, cb ∈ s'.cmd_buffers_render ∨ cb ∈ s'.cmd_buffers_feed →
      cb.refs = [] ∧ cb.params_buff = [] ∧ cb.cmd_idx = 0 := by
  unfold rizz__gfx_execute_command_buffers_final at h
  split at h
  · exact absurd h (by simp)
  · cases hr : rizz__gfx_execute_command_buffer s.cmd_buffers_render with
    | none => rw [hr] at h; exact absurd h (by simp)
    | some pr =>
      obtain ⟨dr, render1⟩ := pr
      rw [hr] at h
      cases hf : rizz__gfx_execute_command_buffer s.cmd_buffers_feed with
      | none => rw [hf] at h; exact absurd h (by simp)
      | some pf =>
        obtain ⟨df, feed1⟩ := pf
        rw [hf] at h
        simp only [Option.some.injEq, Prod.mk.injEq] at h
        obtain ⟨-, -, hs'⟩ := h
        subst hs'
        intro cb hcb
        rcases hcb with hcb | hcb
        · exact execute_command_buffer_drained s.cmd_buffers_render dr render1 hr cb hcb
        · exact execute_command_buffer_drained s.cmd_buffers_feed df feed1 hf cb hcb

/-- Graphics state of the C9 witness: one pending command in each buffer set. -/
def c9State : GfxState :=
  { stages := []
    cmd_buffers_render :=
      [{ params_buff := [1, 2], running_stage := 0, index := 0, stage_order := 1, cmd_idx := 1,
         refs := [{ key := 65536, cmdbuffer_idx := 0, cmd := 7, params_offset := 0 }] }]
    cmd_buffers_feed :=
      [{ params_buff := [3], running_stage := 0, index := 0, stage_order := 1, cmd_idx := 1,
         refs := [{ key := 65537, cmdbuffer_idx := 0, cmd := 8, params_offset := 0 }] }] }

/-- Final-execution result of the C9 witness. -/
def c9Res : List Cmdref × List Cmdref × GfxState :=
  (rizz__gfx_execute_command_buffers_final c9State).getD ([], [], c9State)

/-- Drained render-set buffer of the C9 witness. -/
def c9Drained : Cmdbuffer := c9Res.2.2.cmd_buffers_render.getD 0 default

/-- Witness for C9 at the concrete shutdown state. -/
theorem gfx_execute_final_drains_witness :
    c9Drained.refs = [] ∧ c9Drained.params_buff = [] ∧ c9Drained.cmd_idx = 0 :=
  gfx_execute_final_drains c9State c9Res.1 c9Res.2.1 c9Res.2.2 rfl c9Drained
    (Or.inl (by decide))

/-! Claim C5. -/

lemma stageAt_oob (l : List Stage) (i : Nat) (h : l.length ≤ i) : stageAt l i = default := by
  simp [stageAt, List.getD_eq_getElem?_getD, List.getElem?_eq_none h]

lemma stageAt_set_field (f : Stage → Nat) (l : List Stage) (i : Nat) (a : Stage)
    (ha : f a = f (stageAt l i)) (j : Nat) :
    f (stageAt (l.set i a) j) = f (stageAt l j) := by
  by_cases hij : i = j
  · subst hij
    by_cases hlen : i < l.length
    · rw [stageAt_set_self l i a hlen, ha]
    · rw [List.set_eq_of_length_le (Nat.le_of_not_lt hlen)]
  · rw [stageAt_set_ne l a hij]

lemma cascade_enable_length :
    ∀ (fuel : Nat) (l : List Stage) (c : Nat), (cascade_enable l fuel c).length = l.length := by
  intro fuel
  induction fuel with
  | zero => intro l c; rfl
  | succ n ih =>
    intro l c
    by_cases hc : c = 0
    · simp [cascade_enable, hc]
    · simp only [cascade_enable, if_neg hc]
      rw [ih, List.length_set]

lemma cascade_disable_length :
    ∀ (fuel : Nat) (l : List Stage) (c : Nat), (cascade_disable l fuel c).length = l.length := by
  intro fuel
  induction fuel with
  | zero => intro l c; rfl
  | succ n ih =>
    intro l c
    by_cases hc : c = 0
    · simp [cascade_disable, hc]
    · simp only [cascade_disable, if_neg hc]
      rw [ih, List.length_set]

lemma cascade_enable_field (f : Stage → Nat)
    (hf : ∀ (s : Stage) (b : Bool), f { s with enabled := b } = f s) :
    ∀ (fuel : Nat) (l : List Stage) (c j : Nat),
      f (stageAt (cascade_enable l fuel c) j) = f (stageAt l j) := by
  intro fuel
  induction fuel with
  | zero => intro l c j; rfl
  | succ n ih =>
    intro l c j
    by_cases hc : c = 0
    · simp [cascade_enable, hc]
    · simp only [cascade_enable, if_neg hc]
      rw [ih]
      exact stageAt_set_field f l _ _ (hf _ _) j

lemma cascade_disable_field (f : Stage → Nat)
    (hf : ∀ (s : Stage) (b : Bool), f { s with enabled := b } = f s) :
    ∀ (fuel : Nat) (l : List Stage) (c j : Nat),
      f (stageAt (cascade_disable l fuel c) j) = f (stageAt l j) := by
  intro fuel
  induction fuel with
  | zero => intro l c j; rfl
  | succ n ih =>
    intro l c j
    by_cases hc : c = 0
    · simp [cascade_disable, hc]
    · simp only [cascade_disable, if_neg hc]
      rw [ih]
      exact stageAt_set_field f l _ _ (hf _ _) j

lemma next_chain_congr (s t : List Stage)
    (h : ∀ j, (stageAt s j).next = (stageAt t j).next) :
    ∀ (fuel c : Nat), next_chain s fuel c = next_chain t fuel c := by
  intro fuel
  induction fuel with
  | zero => intro c; rfl
  | succ n ih =>
    intro c
    by_cases hc : c = 0
    · simp [next_chain, hc]
    · simp only [next_chain, if_neg hc]
      rw [h, ih]

lemma cascade_enable_preserve :
    ∀ (fuel : Nat) (l : List Stage) (c j : Nat),
      j ∉ next_chain l fuel c →
      stageAt (cascade_enable l fuel c) j = stageAt l j := by
  intro fuel
  induction fuel with
  | zero => intro l c j _; rfl
  | succ n ih =>
    intro l c j hj
    by_cases hc : c = 0
    · simp [cascade_enable, hc]
    · simp only [next_chain, if_neg hc, List.mem_cons, not_or] at hj
      obtain ⟨hne, htail⟩ := hj
      simp only [cascade_enable, if_neg hc]
      have hnext : ∀ j', (stageAt ((l.set (rizz_to_index c)
          { stageAt l (rizz_to_index c) with
            enabled := (stageAt l (rizz_to_index c)).single_enabled })) j').next =
          (stageAt l j').next :=
        fun j' => stageAt_set_field Stage.next l (rizz_to_index c)
          { stageAt l (rizz_to_index c) with
            enabled := (stageAt l (rizz_to_index c)).single_enabled } rfl j'
      rw [ih _ _ j (by
        rw [next_chain_congr _ l hnext n ((stageAt l (rizz_to_index c)).next)]
        exact htail)]
      exact stageAt_set_ne l _ (fun hh => hne hh.symm)

lemma cascade_disable_keeps_false :
    ∀ (fuel : Nat) (l : List Stage) (c j : Nat),
      (stageAt l j).enabled = false →
      (stageAt (cascade_disable l fuel c) j).enabled = false := by
  intro fuel
  induction fuel with
  | zero => intro l c j h; exact h
  | succ n ih =>
    intro l c j h
    by_cases hc : c = 0
    · simpa [cascade_disable, hc] using h
    · simp only [cascade_disable, if_neg hc]
      apply ih
      by_cases hij : rizz_to_index c = j
      · subst hij
        by_cases hlen : rizz_to_index c < l.length
        · rw [stageAt_set_self _ _ _ hlen]
        · rw [List.set_eq_of_length_le (Nat.le_of_not_lt hlen)]
          exact h
      · rw [stageAt_set_ne l _ hij]
        exact h

lemma stage_enable_links (stages s1 : List Stage) (stage : Nat)
    (h : rizz__stage_enable stages stage = some s1) :
    s1.length = stages.length ∧
    (∀ j, (stageAt s1 j).next = (stageAt stages j).next) ∧
    (∀ j, (stageAt s1 j).child = (stageAt stages j).child) := by
  by_cases hs : stage = 0
  · simp [rizz__stage_enable, hs] at h
  · simp only [rizz__stage_enable, if_neg hs, Option.some.injEq] at h
    subst h
    refine ⟨?_, ?_, ?_⟩
    · rw [cascade_enable_length, List.length_set]
    · intro j
      rw [cascade_enable_field Stage.next (fun _ _ => rfl) _ _ _ j]
      exact stageAt_set_field Stage.next stages (rizz_to_index stage)
        { stageAt stages (rizz_to_index stage) with
          enabled := true, single_enabled := true } rfl j
    · intro j
      rw [cascade_enable_field Stage.child (fun _ _ => rfl) _ _ _ j]
      exact stageAt_set_field Stage.child stages (rizz_to_index stage)
        { stageAt stages (rizz_to_index stage) with
          enabled := true, single_enabled := true } rfl j

lemma stage_disable_links (stages s1 : List Stage) (stage : Nat)
    (h : rizz__stage_disable stages stage = some s1) :
    s1.length = stages.length ∧
    (∀ j, (stageAt s1 j).next = (stageAt stages j).next) ∧
    (∀ j, (stageAt s1 j).child = (stageAt stages j).child) := by
  by_cases hs : stage = 0
  · simp [rizz__stage_disable, hs] at h
  · simp only [rizz__stage_disable, if_neg hs, Option.some.injEq] at h
    subst h
    refine ⟨?_, ?_, ?_⟩
    · rw [cascade_disable_length, List.length_set]
    · intro j
      rw [cascade_disable_field Stage.next (fun _ _ => rfl) _ _ _ j]
      exact stageAt_set_field Stage.next stages (rizz_to_index stage)
        { stageAt stages (rizz_to_index stage) with
          enabled := false, single_enabled := false } rfl j
    · intro j
      rw [cascade_disable_field Stage.child (fun _ _ => rfl) _ _ _ j]
      exact stageAt_set_field Stage.child stages (rizz_to_index stage)
        { stageAt stages (rizz_to_index stage) with
          enabled := false, single_enabled := false } rfl j

/-- C5: enable/disable cascade a single level only. For any stage array in
which `grand` is a different stage than `root` that does not appear in `root`'s
direct child list (as is the case for the grandchild of a registered
root → child → grandchild chain), the call sequence `enable root`,
`disable grand`, `enable root` leaves `grand` disabled: re-enabling the
ancestor re-applies only its direct children's own `single_enabled` memory and
never reaches the grandchild. -/
theorem stage_enable_cascade_single_level (stages s1 s2 s3 : List Stage) (root grand : Nat)
    (hgrand : grand ≠ 0)
    (hne : rizz_to_index grand ≠ rizz_to_index root)
    (hchain : rizz_to_index grand ∉
      next_chain stages stages.length (stageAt stages (rizz_to_index root)).child)
    (h1 : rizz__stage_enable stages root = some s1)
    (h2 : rizz__stage_disable s1 grand = some s2)
    (h3 : rizz__stage_enable s2 root = some s3) :
    rizz__stage_isenabled s3 grand = some false := by
  have L1 := stage_enable_links stages s1 root h1
  have L2 := stage_disable_links s1 s2 grand h2
  by_cases hroot : root = 0
  · simp [rizz__stage_enable, hroot] at h3
  -- grand is disabled in s2
  have hg2 : (stageAt s2 (rizz_to_index grand)).enabled = false := by
    simp only [rizz__stage_disable, if_neg hgrand, Option.some.injEq] at h2
    subst h2
    apply cascade_disable_keeps_false
    by_cases hlen : rizz_to_index grand < s1.length
    · rw [stageAt_set_self _ _ _ hlen]
    · rw [List.set_eq_of_length_le (Nat.le_of_not_lt hlen),
        stageAt_oob _ _ (Nat.le_of_not_lt hlen)]
      rfl
  -- unfold the final enable
  simp only [rizz__stage_enable, if_neg hroot, Option.some.injEq] at h3
  subst h3
  -- links of the flag-updated array agree with the original array
  have hnextS1 : ∀ j, (stageAt (s2.set (rizz_to_index root)
      { stageAt s2 (rizz_to_index root) with enabled := true, single_enabled := true }) j).next =
      (stageAt stages j).next := by
    intro j
    rw [stageAt_set_field Stage.next s2 (rizz_to_index root)
      { stageAt s2 (rizz_to_index root) with enabled := true, single_enabled := true } rfl j,
      L2.2.1 j, L1.2.1 j]
  have hlenS1 : (s2.set (rizz_to_index root)
      { stageAt s2 (rizz_to_index root) with
        enabled := true, single_enabled := true }).length = stages.length := by
    rw [List.length_set, L2.1, L1.1]
  have hchild2 : (stageAt s2 (rizz_to_index root)).child =
      (stageAt stages (rizz_to_index root)).child := by
    rw [L2.2.2, L1.2.2]
  -- the grandchild is outside the cascade of the final enable
  have hnotin : rizz_to_index grand ∉
      next_chain (s2.set (rizz_to_index root)
        { stageAt s2 (rizz_to_index root) with enabled := true, single_enabled := true })
        (s2.set (rizz_to_index root)
          { stageAt s2 (rizz_to_index root) with
            enabled := true, single_enabled := true }).length
        (stageAt s2 (rizz_to_index root)).child := by
    rw [next_chain_congr _ stages hnextS1, hlenS1, hchild2]
    exact hchain
  have hpres := cascade_enable_preserve _ _ _ (rizz_to_index grand) hnotin
  have hgset : stageAt (s2.set (rizz_to_index root)
      { stageAt s2 (rizz_to_index root) with enabled := true, single_enabled := true })
      (rizz_to_index grand) = stageAt s2 (rizz_to_index grand) :=
    stageAt_set_ne s2 _ (fun hh => hne hh.symm)
  simp only [rizz__stage_isenabled, if_neg hgrand, Option.some.injEq]
  rw [hpres, hgset]
  exact hg2

/-- First registration of the C5 witness chain: the root stage. -/
def c5Reg1 : Nat × List Stage := (rizz__stage_register [] "root" 0).getD (0, [])

/-- Second registration of the C5 witness chain. -/
def c5Reg2 : Nat × List Stage := (rizz__stage_register c5Reg1.2 "child" c5Reg1.1).getD (0, [])

/-- Third registration of the C5 witness chain. -/
def c5Reg3 : Nat × List Stage := (rizz__stage_register c5Reg2.2 "grand" c5Reg2.1).getD (0, [])

/-- State after `enable root` in the C5 witness. -/
def c5S1 : List Stage := (rizz__stage_enable c5Reg3.2 c5Reg1.1).getD []

/-- State after `disable grand` in the C5 witness. -/
def c5S2 : List Stage := (rizz__stage_disable c5S1 c5Reg3.1).getD []

/-- State after the second `enable root` in the C5 witness. -/
def c5S3 : List Stage := (rizz__stage_enable c5S2 c5Reg1.1).getD []

/-- Witness for C5 at the concrete registered chain. -/
theorem stage_enable_cascade_single_level_witness :
    rizz__stage_isenabled c5S3 c5Reg3.1 = some false :=
  stage_enable_cascade_single_level c5Reg3.2 c5S1 c5S2 c5S3 c5Reg1.1 c5Reg3.1
    (by decide) (by decide) (by decide) rfl rfl rfl

/-! Claim C3. -/

lemma streamFind_lt_length : ∀ (l : List StreamBuffer) (id i : Nat),
    streamFind l id = some i → i < l.length := by
  intro l
  induction l with
  | nil => intro id i h; exact absurd h (by simp [streamFind])
  | cons sb rest ih =>
    intro id i h
    simp only [streamFind] at h
    by_cases hb : sb.buf = id
    · rw [if_pos hb] at h
      cases h
      simp
    · rw [if_neg hb] at h
      cases hf : streamFind rest id with
      | none => rw [hf] at h; exact absurd h (by simp)
      | some j =>
        rw [hf] at h
        simp only [Option.map_some', Option.some.injEq] at h
        subst h
        simpa using Nat.succ_lt_succ (ih id j hf)

lemma streamFind_set (id : Nat) : ∀ (l : List StreamBuffer) (i : Nat) (sb' : StreamBuffer),
    streamFind l id = some i → sb'.buf = (l.getD i default).buf →
    streamFind (l.set i sb') id = some i := by
  intro l
  induction l with
  | nil => intro i sb' h _; exact absurd h (by simp [streamFind])
  | cons sb rest ih =>
    intro i sb' h hbuf
    simp only [streamFind] at h
    by_cases hb : sb.buf = id
    · rw [if_pos hb] at h
      cases h
      have hb' : sb'.buf = sb.buf := by simpa using hbuf
      simp [List.set, streamFind, hb', hb]
    · rw [if_neg hb] at h
      cases hf : streamFind rest id with
      | none => rw [hf] at h; exact absurd h (by simp)
      | some j =>
        rw [hf] at h
        simp only [Option.map_some', Option.some.injEq] at h
        subst h
        have hbuf' : sb'.buf = (rest.getD j default).buf := by simpa using hbuf
        simp only [List.set, streamFind, if_neg hb]
        rw [ih j sb' hf hbuf']
        rfl

lemma streamBuffs_getD_set_self (l : List StreamBuffer) (i : Nat) (sb' : StreamBuffer)
    (h : i < l.length) : (l.set i sb').getD i default = sb' := by
  simp [List.getD_eq_getElem?_getD, List.getElem?_set_self h]

lemma sum_take_le (l : List Nat) : ∀ n, (l.take n).sum ≤ l.sum := by
  induction l with
  | nil => intro n; simp
  | cons x xs ih =>
    intro n
    cases n with
    | zero => simp
    | succ m => simpa using Nat.add_le_add_left (ih m) x

lemma sum_take_mono (l : List Nat) {a b : Nat} (h : a ≤ b) :
    (l.take a).sum ≤ (l.take b).sum := by
  have heq : l.take a = (l.take b).take a := by rw [List.take_take, Nat.min_eq_left h]
  rw [heq]
  exact sum_take_le (l.take b) a

lemma appendMany_offsets (buf : Nat) :
    ∀ (datas : List (List UInt8)) (st : AppendState) (i : Nat) (offs : List Nat)
      (st' : AppendState),
      streamFind st.stream_buffs buf = some i →
      appendMany st buf datas = some (offs, st') →
      offs.length = datas.length ∧
      (∀ k, k < offs.length →
        offs.getD k 0 = (st.stream_buffs.getD i default).offset +
          ((datas.map (fun d => d.length)).take k).sum) ∧
      streamFind st'.stream_buffs buf = some i ∧
      (st'.stream_buffs.getD i default).offset =
        (st.stream_buffs.getD i default).offset + (datas.map (fun d => d.length)).sum ∧
      (st'.stream_buffs.getD i default).size = (st.stream_buffs.getD i default).size := by
  intro datas
  induction datas with
  | nil =>
    intro st i offs st' hfind happ
    simp only [appendMany, Option.some.injEq, Prod.mk.injEq] at happ
    obtain ⟨h1, h2⟩ := happ
    subst h1
    subst h2
    exact ⟨rfl, fun k hk => absurd hk (by simp), hfind, by simp, rfl⟩
  | cons d rest ih =>
    intro st i offs st' hfind happ
    cases ha : rizz__cb_append_buffer st buf d with
    | none =>
      simp only [appendMany, ha] at happ
      exact Option.noConfusion happ
    | some p =>
      obtain ⟨o, st1⟩ := p
      cases hrest : appendMany st1 buf rest with
      | none =>
        simp only [appendMany, ha, hrest] at happ
        exact Option.noConfusion happ
      | some q =>
        obtain ⟨os, st2⟩ := q
        simp only [appendMany, ha, hrest, Option.some.injEq, Prod.mk.injEq] at happ
        obtain ⟨ho, hst⟩ := happ
        subst ho
        subst hst
        have hilt : i < st.stream_buffs.length := streamFind_lt_length _ buf i hfind
        -- dissect the single append
        simp only [rizz__cb_append_buffer, hfind] at ha
        split at ha
        · exact absurd ha (by simp)
        · split at ha
          · exact absurd ha (by simp)
          · split at ha
            · exact absurd ha (by simp)
            · simp only [Option.some.injEq, Prod.mk.injEq] at ha
              obtain ⟨hofs, hst1⟩ := ha
              have hsb1 : st1.stream_buffs = st.stream_buffs.set i
                  { st.stream_buffs.getD i default with
                    offset := (st.stream_buffs.getD i default).offset + d.length } := by
                rw [← hst1]
              have hfind1 : streamFind st1.stream_buffs buf = some i := by
                rw [hsb1]
                exact streamFind_set buf st.stream_buffs i _ hfind rfl
              have hgetD1 : st1.stream_buffs.getD i default =
                  { st.stream_buffs.getD i default with
                    offset := (st.stream_buffs.getD i default).offset + d.length } := by
                rw [hsb1]
                exact streamBuffs_getD_set_self st.stream_buffs i _ hilt
              obtain ⟨hlen, hform, hfind2, hfinal, hsize⟩ :=
                ih st1 i os st2 hfind1 hrest
              refine ⟨by simpa using hlen, ?_, hfind2, ?_, ?_⟩
              · intro k hk
                cases k with
                | zero => simpa using hofs.symm
                | succ m =>
                  have hm : m < os.length := by simpa using hk
                  have hfm := hform m hm
                  simp only [hgetD1] at hfm
                  simp only [List.getD_cons_succ, List.map_cons, List.take_succ_cons,
                    List.sum_cons]
                  rw [hfm]
                  omega
              · simp only [hfinal, hgetD1, List.map_cons, List.sum_cons]
                omega
              · simp only [hsize, hgetD1]

/-- C3: the append-buffer write-offset protocol on a registered stream buffer.
Every successful sequence of appends receives write offsets that are the
running sums of the requested sizes above the buffer's starting offset (each
call returns the pre-add value of the fetch-add on the entry's offset), hence
pairwise disjoint byte ranges whose union size is the sum of the requested
sizes, and the entry's final offset is the starting offset plus that sum; an
append whose resulting offset would exceed the declared capacity fails the
`sbuff->offset + data_size <= sbuff->size` assertion. -/
theorem cb_append_buffer_disjoint_ranges (st : AppendState) (buf i : Nat)
    (hfind : streamFind st.stream_buffs buf = some i) :
    (∀ (datas : List (List UInt8)) (offs : List Nat) (st' : AppendState),
      appendMany st buf datas = some (offs, st') →
      offs.length = datas.length ∧
      (∀ k, k < offs.length →
        offs.getD k 0 = (st.stream_buffs.getD i default).offset +
          ((datas.map (fun d => d.length)).take k).sum) ∧
      (∀ k l, k < l → l < offs.length →
        offs.getD k 0 + (datas.getD k []).length ≤ offs.getD l 0) ∧
      (st'.stream_buffs.getD i default).offset =
        (st.stream_buffs.getD i default).offset +
          (datas.map (fun d => d.length)).sum) ∧
    (∀ data : List UInt8,
      (st.stream_buffs.getD i default).size <
        (st.stream_buffs.getD i default).offset + data.length →
      rizz__cb_append_buffer st buf data = none) := by
  constructor
  · intro datas offs st' happ
    obtain ⟨hlen, hform, -, hfinal, -⟩ := appendMany_offsets buf datas st i offs st' hfind happ
    refine ⟨hlen, hform, ?_, hfinal⟩
    intro k l hkl hl
    have hk : k < offs.length := Nat.lt_trans hkl hl
    rw [hform k hk, hform l hl]
    have hkd : k < (datas.map (fun d => d.length)).length := by
      rw [List.length_map, ← hlen]
      exact hk
    have hsz : (datas.getD k []).length = (datas.map (fun d => d.length)).getD k 0 :=
      (List.getD_map datas [] (fun d => d.length)).symm
    have hstep : ((datas.map (fun d => d.length)).take (k + 1)).sum =
        ((datas.map (fun d => d.length)).take k).sum +
          (datas.map (fun d => d.length)).getD k 0 := by
      rw [List.sum_take_succ _ k hkd, List.getD_eq_getElem?_getD,
        List.getElem?_eq_getElem hkd]
      rfl
    have hmono : ((datas.map (fun d => d.length)).take (k + 1)).sum ≤
        ((datas.map (fun d => d.length)).take l).sum :=
      sum_take_mono _ hkl
    omega
  · intro data hov
    have hng : ¬((st.stream_buffs.getD i default).offset + data.length ≤
        (st.stream_buffs.getD i default).size) := Nat.not_le.mpr hov
    simp only [rizz__cb_append_buffer, hfind]
    rw [if_pos hng]

/-- Command buffer of the C3 witness (a stage is running). -/
def c3Cb : Cmdbuffer :=
  { params_buff := [], refs := [], running_stage := 1, index := 0, stage_order := 1,
    cmd_idx := 0 }

/-- State of the C3 witness: one registered 256-byte stream buffer (handle 7)
with offset 0. -/
def c3St : AppendState :=
  { stream_buffs := [{ buf := 7, offset := 0, size := 256 }], cb := c3Cb,
    buffer_used_frames := [(7, 0)], frame := 3 }

/-- A 100-byte payload for the C3 witness. -/
def c3Data : List UInt8 := List.replicate 100 0

/-- Result of the first two 100-byte appends of the C3 witness. -/
def c3Res : List Nat × AppendState := (appendMany c3St 7 [c3Data, c3Data]).getD ([], c3St)

/-- Witness for C3: two 100-byte appends to the 256-byte stream buffer receive
offsets 0 and 100, and a third 100-byte append hits the overflow assertion
(100 + 100 + 100 > 256). -/
theorem cb_append_buffer_disjoint_ranges_witness :
    (c3Res.1.getD 0 0 = (c3St.stream_buffs.getD 0 default).offset +
      (([c3Data, c3Data].map (fun d => d.length)).take 0).sum) ∧
    (c3Res.1.getD 1 0 = (c3St.stream_buffs.getD 0 default).offset +
      (([c3Data, c3Data].map (fun d => d.length)).take 1).sum) ∧
    rizz__cb_append_buffer c3Res.2 7 c3Data = none :=
  ⟨((cb_append_buffer_disjoint_ranges c3St 7 0 rfl).1 [c3Data, c3Data] c3Res.1 c3Res.2
      rfl).2.1 0 (by decide),
   ((cb_append_buffer_disjoint_ranges c3St 7 0 rfl).1 [c3Data, c3Data] c3Res.1 c3Res.2
      rfl).2.1 1 (by decide),
   (cb_append_buffer_disjoint_ranges c3Res.2 7 0 rfl).2 c3Data (by decide)⟩

end Rizz
